import Mathlib

/-!
Verification development for the dra-driver-sriov node agent.

The definitions below are a shallow embedding of the device-state table
(pkg/devicestate, code shown in CONTRIBUTING.md), the policy reconciler
(pkg/controller/resourcepolicycontroller.go) and the periodic sync loop
(pkg/driver/driver.go).  Go maps are embedded as association lists
(List (String × _)); map reads become lookupKey, key-indexed stores become
storeKey and deletes become removeKey.  Where a theorem needs the map view
to be well formed we add an explicit NodupKeys hypothesis.
-/

namespace DraSriov

/-- Key-indexed read of an association list, first matching entry wins
(the embedding of a Go map read). -/
def lookupKey {β : Type} (k : String) : List (String × β) → Option β
  | [] => none
  | p :: rest => if p.1 = k then some p.2 else lookupKey k rest

/-- Key-indexed store: replaces the entry holding the key, appends a new
entry when the key is absent (the embedding of a Go map assignment). -/
def storeKey {β : Type} (k : String) (v : β) : List (String × β) → List (String × β)
  | [] => [(k, v)]
  | p :: rest => if p.1 = k then (k, v) :: rest else p :: storeKey k v rest

/-- Key-indexed delete (the embedding of the Go delete builtin). -/
def removeKey {β : Type} (k : String) (l : List (String × β)) : List (String × β) :=
  l.filter (fun p => p.1 ≠ k)

/-- The keys of an association list are pairwise distinct, as they are in
an actual Go map. -/
def NodupKeys {β : Type} (l : List (String × β)) : Prop :=
  (l.map Prod.fst).Nodup

/-- resourceapi.DeviceAttribute: one of the typed value fields is set. -/
structure DeviceAttribute where
  stringValue : Option String := none
  boolValue : Option Bool := none
  intValue : Option Int := none
deriving DecidableEq

/-- resourceapi.Device: stable name plus the dynamic attribute bag. -/
structure Device where
  name : String := ""
  attributes : List (String × DeviceAttribute) := []
deriving DecidableEq

/-- Qualified attribute keys from pkg/consts. -/
def AttributeResourceName : String := "resourceName"

def AttributeVendorID : String := "vendorID"

def AttributeDeviceID : String := "deviceID"

def AttributePciAddress : String := "pciAddress"

def AttributePFName : String := "pfName"

def AttributeParentPciAddress : String := "parentPciAddress"

def AttributeNumaNode : String := "numaNode"

def AttributeRDMACapable : String := "rdmaCapable"

/-- The string value of an attribute of a device: present only when the
attribute exists and its StringValue pointer is non-nil. -/
def stringAttr (d : Device) (k : String) : Option String :=
  (lookupKey k d.attributes).bind (fun a => a.stringValue)

/-- Whether the resourceName (exposure tag) attribute exists on the device,
the condition the Go code tests before delete. -/
def hasResourceNameAttr (d : Device) : Bool :=
  (lookupKey AttributeResourceName d.attributes).isSome

/-- The Go guard `exists && StringValue != nil && *StringValue == rn`
used to skip a redundant write in UpdateDeviceResourceNames. -/
def resourceNameAttrMatches (d : Device) (rn : String) : Bool :=
  match lookupKey AttributeResourceName d.attributes with
  | some attr =>
    match attr.stringValue with
    | some v => v == rn
    | none => false
  | none => false

/-- `device.Attributes[AttributeResourceName] = DeviceAttribute{StringValue: &rn}`. -/
def setResourceNameAttr (d : Device) (rn : String) : Device :=
  { d with attributes := storeKey AttributeResourceName ⟨some rn, none, none⟩ d.attributes }

/-- `delete(device.Attributes, AttributeResourceName)`. -/
def clearResourceNameAttr (d : Device) : Device :=
  { d with attributes := removeKey AttributeResourceName d.attributes }

/-- GetAdvertisableDevices from pkg/devicestate (code in CONTRIBUTING.md):
keep only devices whose resourceName attribute exists with a non-nil,
non-empty string value. -/
def GetAdvertisableDevices (allocatable : List (String × Device)) : List (String × Device) :=
  allocatable.filter (fun p =>
    match lookupKey AttributeResourceName p.2.attributes with
    | some attr =>
      match attr.stringValue with
      | some v => v != ""
      | none => false
    | none => false)

/-- First phase of UpdateDeviceResourceNames: one step per entry of the
deviceResourceMap.  Mirrors the Go branch structure, setting the changed
flag exactly when a write happens. -/
def updateEntryStep (acc : List (String × Device) × Bool) (entry : String × String) :
    List (String × Device) × Bool :=
  match lookupKey entry.1 acc.1 with
  | none => acc
  | some device =>
    if entry.2 ≠ "" then
      if resourceNameAttrMatches device entry.2 then acc
      else (storeKey entry.1 (setResourceNameAttr device entry.2) acc.1, true)
    else
      if hasResourceNameAttr device then
        (storeKey entry.1 (clearResourceNameAttr device) acc.1, true)
      else acc

/-- Second phase of UpdateDeviceResourceNames: clear the resourceName
attribute of every device whose name is not a key of the map. -/
def clearMissingStep (m : List (String × String)) (acc : List (String × Device) × Bool)
    (p : String × Device) : List (String × Device) × Bool :=
  if (lookupKey p.1 m).isNone && hasResourceNameAttr p.2 then
    (acc.1 ++ [(p.1, clearResourceNameAttr p.2)], true)
  else (acc.1 ++ [p], acc.2)

/-- UpdateDeviceResourceNames from pkg/devicestate/state.go (code in
CONTRIBUTING.md).  Returns the updated allocatable map together with the
changesMade flag; the registered republish callback is invoked exactly
when that flag is true. -/
def UpdateDeviceResourceNames (allocatable : List (String × Device))
    (deviceResourceMap : List (String × String)) : List (String × Device) × Bool :=
  let phase1 := deviceResourceMap.foldl updateEntryStep (allocatable, false)
  phase1.1.foldl (clearMissingStep deviceResourceMap) ([], phase1.2)

/-- The per-device effect of phase one, used to characterise the fold. -/
def applyDev1 (m : List (String × String)) (n : String) (d : Device) : Device :=
  match lookupKey n m with
  | some r =>
    if r ≠ "" then
      if resourceNameAttrMatches d r then d else setResourceNameAttr d r
    else
      if hasResourceNameAttr d then clearResourceNameAttr d else d
  | none => d

/-- Whether phase one flags a change for this device. -/
def devChanged1 (m : List (String × String)) (n : String) (d : Device) : Bool :=
  match lookupKey n m with
  | some r => if r ≠ "" then !(resourceNameAttrMatches d r) else hasResourceNameAttr d
  | none => false

/-- The per-device effect of phase two. -/
def applyDev2 (m : List (String × String)) (n : String) (d : Device) : Device :=
  if (lookupKey n m).isNone && hasResourceNameAttr d then clearResourceNameAttr d else d

/-- Whether phase two flags a change for this device. -/
def devChanged2 (m : List (String × String)) (n : String) (d : Device) : Bool :=
  (lookupKey n m).isNone && hasResourceNameAttr d

/-- The combined per-device effect of UpdateDeviceResourceNames: set the
tag to the non-empty mapped value, clear it otherwise. -/
def applyDev (m : List (String × String)) (n : String) (d : Device) : Device :=
  match lookupKey n m with
  | some r =>
    if r ≠ "" then
      if resourceNameAttrMatches d r then d else setResourceNameAttr d r
    else
      if hasResourceNameAttr d then clearResourceNameAttr d else d
  | none => if hasResourceNameAttr d then clearResourceNameAttr d else d

/-- Whether UpdateDeviceResourceNames flags a change for this device. -/
def devChanged (m : List (String × String)) (n : String) (d : Device) : Bool :=
  match lookupKey n m with
  | some r => if r ≠ "" then !(resourceNameAttrMatches d r) else hasResourceNameAttr d
  | none => hasResourceNameAttr d

/-- The exposure tag demanded by a mapping for a device name: the
mapped value when present and non-empty, nothing otherwise. -/
def expectedTag (m : List (String × String)) (n : String) : Option String :=
  match lookupKey n m with
  | some r => if r = "" then none else some r
  | none => none

/-- SriovResourcePolicy spec types (pkg/api/sriovdra/v1alpha1): a filter is
a conjunction of optional attribute predicates. -/
structure ResourceFilter where
  vendors : List String := []
  devices : List String := []
  pciAddresses : List String := []
  pfNames : List String := []
  rootDevices : List String := []
  numaNodes : List String := []
  drivers : List String := []
deriving DecidableEq

/-- A config carries the exposure tag (resourceName) plus a filter list. -/
structure Config where
  resourceName : String := ""
  resourceFilters : List ResourceFilter := []
deriving DecidableEq

/-- A policy: node selector plus an ordered list of configs. -/
structure Policy where
  name : String := ""
  nodeSelector : List (String × String) := []
  configs : List Config := []
deriving DecidableEq

/-- stringSliceContains from resourcepolicycontroller.go. -/
def stringSliceContains (slice : List String) (item : String) : Bool :=
  slice.any (fun s => s == item)

/-- One attribute check of deviceMatchesFilter: an empty predicate list is
skipped, a non-empty one requires the attribute value to be present and
contained in the list. -/
def checkAttrPredicate (pred : List String) (v : Option String) : Bool :=
  if pred.isEmpty then true
  else
    match v with
    | some s => stringSliceContains pred s
    | none => false

/-- The NUMA attribute as the decimal string the Go code compares
(strconv.FormatInt of the IntValue). -/
def numaAttrString (d : Device) : Option String :=
  ((lookupKey AttributeNumaNode d.attributes).bind (fun a => a.intValue)).map
    (fun i => toString i)

/-- deviceMatchesFilter from resourcepolicycontroller.go: the conjunction
of the six evaluated attribute predicates.  The drivers predicate is
accepted but not evaluated (source TODO at lines 346-351). -/
def deviceMatchesFilter (d : Device) (f : ResourceFilter) : Bool :=
  checkAttrPredicate f.vendors (stringAttr d AttributeVendorID) &&
  checkAttrPredicate f.devices (stringAttr d AttributeDeviceID) &&
  checkAttrPredicate f.pciAddresses (stringAttr d AttributePciAddress) &&
  checkAttrPredicate f.pfNames (stringAttr d AttributePFName) &&
  checkAttrPredicate f.rootDevices (stringAttr d AttributeParentPciAddress) &&
  checkAttrPredicate f.numaNodes (numaAttrString d)

/-- deviceMatchesFilters from resourcepolicycontroller.go: an empty filter
list matches every device, otherwise OR across the filters. -/
def deviceMatchesFilters (d : Device) (filters : List ResourceFilter) : Bool :=
  if filters.isEmpty then true
  else filters.any (fun f => deviceMatchesFilter d f)

/-- Inner loop of getFilteredDeviceResourceMap: assign the resourceName of
the config to every not-yet-assigned device that matches its filters. -/
def assignConfigStep (alloc : List (String × Device)) (config : Config)
    (acc : List (String × String)) : List (String × String) :=
  alloc.foldl (fun acc2 p =>
    if (lookupKey p.1 acc2).isSome then acc2
    else if deviceMatchesFilters p.2 config.resourceFilters then acc2 ++ [(p.1, config.resourceName)]
    else acc2) acc

/-- getFilteredDeviceResourceMap from resourcepolicycontroller.go: empty
when no policy is active, otherwise configs are processed in declared
order, skipping configs with an empty resourceName, and a device already
assigned a tag is never reassigned. -/
def getFilteredDeviceResourceMap (currentResourcePolicy : Option Policy)
    (alloc : List (String × Device)) : List (String × String) :=
  match currentResourcePolicy with
  | none => []
  | some policy =>
    policy.configs.foldl (fun acc config =>
      if config.resourceName = "" then acc
      else assignConfigStep alloc config acc) []

/-- matchesNodeSelector from resourcepolicycontroller.go.  An empty
selector matches all nodes; otherwise labels.Set(selector).AsSelector()
builds the conjunction of per-key equality requirements. -/
def matchesNodeSelector (nodeLabels nodeSelector : List (String × String)) : Bool :=
  if nodeSelector.isEmpty then true
  else nodeSelector.all (fun kv => lookupKey kv.1 nodeLabels == some kv.2)

/-- The matching-policy subset computed at the top of Reconcile. -/
def matchingPolicies (nodeLabels : List (String × String)) (policies : List Policy) :
    List Policy :=
  policies.filter (fun p => matchesNodeSelector nodeLabels p.nodeSelector)

/-- What one Reconcile run did to the device table. -/
structure ReconcileOutcome where
  currentResourcePolicy : Option Policy
  updateCalled : Bool
  updateArg : List (String × String)
  alloc : List (String × Device)
  changed : Bool
deriving DecidableEq

/-- Reconcile from resourcepolicycontroller.go after the matching-policy
subset is computed: the zero-match case clears via an empty mapping, the
one-match case applies the policy, and the multiple-match default branch
only resets the current policy without touching the device table. -/
def Reconcile (nodeLabels : List (String × String)) (policies : List Policy)
    (alloc : List (String × Device)) : ReconcileOutcome :=
  match matchingPolicies nodeLabels policies with
  | [] =>
    let m := getFilteredDeviceResourceMap none alloc
    let r := UpdateDeviceResourceNames alloc m
    ⟨none, true, m, r.1, r.2⟩
  | [p] =>
    let m := getFilteredDeviceResourceMap (some p) alloc
    let r := UpdateDeviceResourceNames alloc m
    ⟨some p, true, m, r.1, r.2⟩
  | _ :: _ :: _ => ⟨none, false, [], alloc, false⟩

/-- deviceSetsAreDifferent from driver.go: count change, missing device,
or deep inequality of a device record. -/
def deviceSetsAreDifferent (current newDevices : List (String × Device)) : Bool :=
  if current.length ≠ newDevices.length then true
  else current.any (fun p =>
    match lookupKey p.1 newDevices with
    | none => true
    | some nd => decide (nd ≠ p.2))

/-- Observable table and publisher operations performed by one periodic
sync cycle. -/
inductive SyncEvent where
  | setAllocatableDevices (devs : List (String × Device))
  | reconcileTriggered
  | publishResources
deriving DecidableEq

/-- syncDevicesAndResources from driver.go, given the freshly discovered
device set: when the comparison reports a change the cycle stores the new
snapshot, re-runs the policy reconciler over it and publishes once;
otherwise it does nothing. -/
def syncDevicesAndResources (nodeLabels : List (String × String)) (policies : List Policy)
    (current newDevices : List (String × Device)) :
    List SyncEvent × List (String × Device) :=
  if deviceSetsAreDifferent current newDevices then
    let outcome := Reconcile nodeLabels policies newDevices
    ([SyncEvent.setAllocatableDevices newDevices, SyncEvent.reconcileTriggered,
      SyncEvent.publishResources], outcome.alloc)
  else ([], current)

/-- The RDMA-capable guard used before RDMA preparation:
attribute present, BoolValue non-nil and true. -/
def isRDMACapable (d : Device) : Bool :=
  match lookupKey AttributeRDMACapable d.attributes with
  | some attr =>
    match attr.boolValue with
    | some b => b
    | none => false
  | none => false

/-- A device-node entry of the preparation payload (container path, host
path, device type). -/
structure DeviceNode where
  path : String
  hostPath : String
  nodeType : String
deriving DecidableEq

/-- Device names are sanitised for use inside environment-variable keys:
dashes become underscores (device-1 becomes device_1 in the tests). -/
def sanitizeEnvName (s : String) : String :=
  s.map (fun c => if c = '-' then '_' else c)

/-- Environment key suffix for one RDMA character device, derived from the
file name under /dev/infiniband as the tests show (uverbs0 gives
RDMA_UVERB, umad0 gives RDMA_UMAD, issm0 gives RDMA_ISSM and rdma_cm
gives RDMA_CM). -/
def rdmaEnvSuffix (p : String) : String :=
  let file := (p.splitOn "/").getLastD ""
  if file.startsWith "uverbs" then "_RDMA_UVERB"
  else if file.startsWith "umad" then "_RDMA_UMAD"
  else if file.startsWith "issm" then "_RDMA_ISSM"
  else if file.startsWith "rdma_cm" then "_RDMA_CM"
  else "_RDMA_DEV"

/-- The KEY=VALUE environment string for one RDMA character device. -/
def rdmaEnvEntry (deviceName p : String) : String :=
  "SRIOVNETWORK_" ++ sanitizeEnvName deviceName ++ rdmaEnvSuffix p ++ "=" ++ p

/-- Modelled from the spec: handleRDMADevice of pkg/devicestate/state.go is
not part of the source snapshot (only its unit tests in state_test.go are).
Per the spec, a non-RDMA device is skipped with empty payloads; an
RDMA-capable device must resolve to exactly one RDMA device for its PCI
address, zero or several being a hard error with no device nodes and no
environment entries; the character devices of the one resolved RDMA device
become the device-node list, and the environment entries include the
resolved RDMA device name. -/
def handleRDMADevice (deviceInfo : Device) (deviceName : String)
    (rdmaDevicesForPci : List String)
    (charDevicesOf : String → Except String (List String)) :
    Except String (List DeviceNode × List String) :=
  if !(isRDMACapable deviceInfo) then Except.ok ([], [])
  else
    match rdmaDevicesForPci with
    | [] => Except.error "no RDMA devices found"
    | [rdmaDev] =>
      match charDevicesOf rdmaDev with
      | Except.error e => Except.error e
      | Except.ok chars =>
        if chars.isEmpty then Except.error "no RDMA character devices found"
        else
          Except.ok
            (chars.map (fun p => ⟨p, p, "c"⟩),
             chars.map (rdmaEnvEntry deviceName) ++
               ["SRIOVNETWORK_" ++ sanitizeEnvName deviceName ++ "_RDMA_DEVICE=" ++ rdmaDev])
    | _ :: _ :: _ => Except.error "expected exactly one RDMA device"

/-- A per-claim prepared-device record (pkg/types PreparedDevices entry):
target PCI address, the original kernel driver captured before rebinding,
the driver requested by the claim config, and the owning pod. -/
structure PreparedDevice where
  pciAddress : String := ""
  originalDriver : String := ""
  configDriver : String := ""
  podUID : String := ""
deriving DecidableEq

/-- Modelled from the spec: the restore condition of unprepareDevices in
pkg/devicestate/state.go, which is not part of the source snapshot (only
its unit tests in CONTRIBUTING.md are).  A record is restored when a
driver was requested by the claim config, an original driver was recorded
at prepare time, and the two differ; records with no requested driver or
no recorded original driver are left untouched. -/
def needsDriverRestore (r : PreparedDevice) : Bool :=
  r.configDriver != "" && r.originalDriver != "" && r.originalDriver != r.configDriver

/-- Host actions performed while releasing a claim. -/
inductive ReleaseAction where
  | restoreDriver (pciAddress driver : String)
  | deleteSpecFile (claimUID : String)
deriving DecidableEq

/-- Modelled from the spec: unprepareDevices of pkg/devicestate/state.go is
not part of the source snapshot (only its unit tests are).  For each
record needing restoration the original driver is restored; a restore
failure (restoreError yields a message) is appended to the aggregated
error list and the remaining records are still processed.  Returns the
restore calls made and the aggregated errors. -/
def unprepareDevices (restoreError : String → String → Option String)
    (preparedDevices : List PreparedDevice) : List ReleaseAction × List String :=
  preparedDevices.foldl (fun acc r =>
    if needsDriverRestore r then
      match restoreError r.pciAddress r.originalDriver with
      | none => (acc.1 ++ [ReleaseAction.restoreDriver r.pciAddress r.originalDriver], acc.2)
      | some e =>
        (acc.1 ++ [ReleaseAction.restoreDriver r.pciAddress r.originalDriver],
         acc.2 ++ ["failed to restore original driver: " ++ e])
    else acc) ([], [])

/-- Modelled from the spec: Unprepare of pkg/devicestate/state.go is not
part of the source snapshot (only its unit tests are).  It runs
unprepareDevices over the claim records and always attempts to delete the
per-claim CDI spec file afterwards, whatever the restore outcome was. -/
def Unprepare (restoreError : String → String → Option String) (claimUID : String)
    (preparedDevices : List PreparedDevice) : List ReleaseAction × List String :=
  let r := unprepareDevices restoreError preparedDevices
  (r.1 ++ [ReleaseAction.deleteSpecFile claimUID], r.2)

/-- The predicate semantics stated by the spec for one attribute of a
filter: an empty predicate list matches every device, a non-empty one
requires the attribute value to be present and contained in the set. -/
def PredicateHolds (pred : List String) (v : Option String) : Prop :=
  pred ≠ [] → ∃ s, v = some s ∧ s ∈ pred

/-- The filter semantics stated by the spec: the conjunction of the six
evaluated attribute predicates. -/
def DeviceMatchesFilterSpec (d : Device) (f : ResourceFilter) : Prop :=
  PredicateHolds f.vendors (stringAttr d AttributeVendorID) ∧
  PredicateHolds f.devices (stringAttr d AttributeDeviceID) ∧
  PredicateHolds f.pciAddresses (stringAttr d AttributePciAddress) ∧
  PredicateHolds f.pfNames (stringAttr d AttributePFName) ∧
  PredicateHolds f.rootDevices (stringAttr d AttributeParentPciAddress) ∧
  PredicateHolds f.numaNodes (numaAttrString d)

/-! ### Association-list lemmas -/

theorem lookupKey_eq_none {β : Type} {k : String} {l : List (String × β)} :
    lookupKey k l = none ↔ ∀ p ∈ l, p.1 ≠ k := by
  induction l with
  | nil => simp [lookupKey]
  | cons p rest ih =>
    by_cases h : p.1 = k <;> simp [lookupKey, h, ih]

theorem lookupKey_append {β : Type} (k : String) (l1 l2 : List (String × β)) :
    lookupKey k (l1 ++ l2) =
      match lookupKey k l1 with
      | some v => some v
      | none => lookupKey k l2 := by
  induction l1 with
  | nil => simp [lookupKey]
  | cons p rest ih =>
    by_cases h : p.1 = k <;> simp [lookupKey, h, ih]

theorem lookupKey_storeKey_self {β : Type} (k : String) (v : β) (l : List (String × β)) :
    lookupKey k (storeKey k v l) = some v := by
  induction l with
  | nil => simp [lookupKey, storeKey]
  | cons p rest ih =>
    by_cases h : p.1 = k <;> simp [lookupKey, storeKey, h, ih]

theorem map_id_of_forall {α : Type} {l : List α} {f : α → α} (h : ∀ x ∈ l, f x = x) :
    l.map f = l := by
  induction l with
  | nil => rfl
  | cons a t ih =>
    simp only [List.map_cons, h a (by simp)]
    rw [ih (fun x hx => h x (by simp [hx]))]

theorem forall_of_map_id {α : Type} {l : List α} {f : α → α} (h : l.map f = l) :
    ∀ x ∈ l, f x = x := by
  induction l with
  | nil => intro x hx; cases hx
  | cons a t ih =>
    simp only [List.map_cons, List.cons.injEq] at h
    intro x hx
    rw [List.mem_cons] at hx
    rcases hx with rfl | hx
    · exact h.1
    · exact ih h.2 x hx

theorem lookupKey_storeKey_ne {β : Type} {k k' : String} (hne : k' ≠ k) (v : β)
    (l : List (String × β)) :
    lookupKey k' (storeKey k v l) = lookupKey k' l := by
  have hk : ¬k = k' := fun hcontra => hne hcontra.symm
  induction l with
  | nil =>
    simp only [storeKey, lookupKey]
    rw [if_neg hk]
  | cons p rest ih =>
    by_cases h : p.1 = k
    · have hp : ¬p.1 = k' := by rw [h]; exact hk
      simp [lookupKey, storeKey, h, hp, hk]
    · by_cases h2 : p.1 = k' <;> simp [lookupKey, storeKey, h, h2, hne, ih]

theorem lookupKey_removeKey_self {β : Type} (k : String) (l : List (String × β)) :
    lookupKey k (removeKey k l) = none := by
  induction l with
  | nil => simp [lookupKey, removeKey]
  | cons p rest ih =>
    by_cases h : p.1 = k <;> simp_all [lookupKey, removeKey, h]

theorem lookupKey_removeKey_ne {β : Type} {k k' : String} (hne : k' ≠ k)
    (l : List (String × β)) :
    lookupKey k' (removeKey k l) = lookupKey k' l := by
  induction l with
  | nil => simp [lookupKey, removeKey]
  | cons p rest ih =>
    by_cases h : p.1 = k
    · subst h
      simp_all [lookupKey, removeKey, Ne.symm hne]
    · by_cases h2 : p.1 = k' <;> simp_all [lookupKey, removeKey, h, h2]

theorem lookupKey_map_value {β : Type} (k : String) (f : String → β → β)
    (l : List (String × β)) :
    lookupKey k (l.map (fun p => (p.1, f p.1 p.2))) = (lookupKey k l).map (f k) := by
  induction l with
  | nil => simp [lookupKey]
  | cons p rest ih =>
    by_cases h : p.1 = k
    · subst h
      simp [lookupKey]
    · simp [lookupKey, h, ih]

theorem lookupKey_of_mem_nodup {β : Type} {p : String × β} :
    ∀ {l : List (String × β)}, p ∈ l → NodupKeys l → lookupKey p.1 l = some p.2 := by
  intro l
  induction l with
  | nil => intro hmem _; cases hmem
  | cons q rest ih =>
    intro hmem hnd
    have hnd' : NodupKeys rest := by
      simpa [NodupKeys] using (List.nodup_cons.mp hnd).2
    rw [List.mem_cons] at hmem
    rcases hmem with heq | hmem
    · subst heq
      simp [lookupKey]
    · have hq : q.1 ≠ p.1 := by
        intro hcontra
        exact (List.nodup_cons.mp hnd).1 (hcontra ▸ List.mem_map_of_mem Prod.fst hmem)
      simp [lookupKey, hq, ih hmem hnd']

theorem mem_of_lookup {β : Type} {k : String} {v : β} :
    ∀ {l : List (String × β)}, lookupKey k l = some v → (k, v) ∈ l := by
  intro l
  induction l with
  | nil => intro hl; simp [lookupKey] at hl
  | cons q rest ih =>
    intro hl
    by_cases h : q.1 = k
    · simp only [lookupKey, h, if_pos] at hl
      rw [List.mem_cons]
      left
      cases q
      simp_all
    · simp only [lookupKey, h, if_neg, if_false] at hl
      rw [List.mem_cons]
      right
      exact ih hl

theorem mem_iff_lookup_nodup {β : Type} {l : List (String × β)} (hnd : NodupKeys l)
    (k : String) (v : β) : (k, v) ∈ l ↔ lookupKey k l = some v := by
  constructor
  · intro hmem
    exact lookupKey_of_mem_nodup hmem hnd
  · exact mem_of_lookup

theorem storeKey_keys_of_mem {β : Type} {k : String} {l : List (String × β)}
    (h : (lookupKey k l).isSome) (v : β) :
    (storeKey k v l).map Prod.fst = l.map Prod.fst := by
  induction l with
  | nil => simp [lookupKey] at h
  | cons p rest ih =>
    by_cases hk : p.1 = k
    · simp [storeKey, hk]
    · simp [lookupKey, hk] at h
      simp [storeKey, hk, ih h]

theorem storeKey_eq_map_of_nodup {β : Type} {k : String} {l : List (String × β)}
    (h : (lookupKey k l).isSome) (hnd : NodupKeys l) (v : β) :
    storeKey k v l = l.map (fun p => if p.1 = k then (k, v) else p) := by
  induction l with
  | nil => simp [lookupKey] at h
  | cons p rest ih =>
    have hnd' : NodupKeys rest := by
      simpa [NodupKeys] using (List.nodup_cons.mp hnd).2
    by_cases hk : p.1 = k
    · subst hk
      have hnotin : ∀ q ∈ rest, q.1 ≠ p.1 := by
        intro q hq hcontra
        exact (List.nodup_cons.mp hnd).1 (hcontra ▸ List.mem_map_of_mem Prod.fst hq)
      have hrest : rest.map (fun q => if q.1 = p.1 then (p.1, v) else q) = rest := by
        apply map_id_of_forall
        intro q hq
        simp [hnotin q hq]
      simp [storeKey, hrest]
    · simp [lookupKey, hk] at h
      simp [storeKey, hk, ih h hnd']

theorem any_congr_mem {α : Type} {l : List α} {p q : α → Bool}
    (h : ∀ x ∈ l, p x = q x) : l.any p = l.any q := by
  induction l with
  | nil => rfl
  | cons a t ih =>
    simp only [List.any_cons, h a (by simp)]
    rw [ih (fun x hx => h x (by simp [hx]))]

/-! ### Characterisation of UpdateDeviceResourceNames -/

theorem updateEntryStep_eq {alloc : List (String × Device)} {k : String} {d : Device}
    (c : Bool) (r : String) (hfind : lookupKey k alloc = some d) :
    updateEntryStep (alloc, c) (k, r) =
      if devChanged1 [(k, r)] k d then
        (storeKey k (applyDev1 [(k, r)] k d) alloc, true)
      else (alloc, c) := by
  have hl : lookupKey k [(k, r)] = some r := by simp [lookupKey]
  by_cases hr : r = ""
  · subst hr
    by_cases hhas : hasResourceNameAttr d
    · simp [updateEntryStep, hfind, devChanged1, applyDev1, hl, hhas]
    · simp [updateEntryStep, hfind, devChanged1, applyDev1, hl, hhas]
  · by_cases hmatch : resourceNameAttrMatches d r
    · simp [updateEntryStep, hfind, devChanged1, applyDev1, hl, hr, hmatch]
    · simp [updateEntryStep, hfind, devChanged1, applyDev1, hl, hr, hmatch]

theorem applyDev1_cons_of_ne {m : List (String × String)} {k n : String} (hne : k ≠ n)
    (r : String) (d : Device) : applyDev1 ((k, r) :: m) n d = applyDev1 m n d := by
  simp [applyDev1, lookupKey, hne]

theorem devChanged1_cons_of_ne {m : List (String × String)} {k n : String} (hne : k ≠ n)
    (r : String) (d : Device) : devChanged1 ((k, r) :: m) n d = devChanged1 m n d := by
  simp [devChanged1, lookupKey, hne]

theorem applyDev1_not_mem {m : List (String × String)} {n : String}
    (hnot : lookupKey n m = none) (d : Device) : applyDev1 m n d = d := by
  simp [applyDev1, hnot]

theorem devChanged1_not_mem {m : List (String × String)} {n : String}
    (hnot : lookupKey n m = none) (d : Device) : devChanged1 m n d = false := by
  simp [devChanged1, hnot]

theorem applyDev1_single {k : String} (r : String) (d : Device) :
    applyDev1 ((k, r) :: m) k d = applyDev1 [(k, r)] k d := by
  simp [applyDev1, lookupKey]

theorem devChanged1_single {k : String} (r : String) (d : Device) :
    devChanged1 ((k, r) :: m) k d = devChanged1 [(k, r)] k d := by
  simp [devChanged1, lookupKey]

theorem applyDev1_id_of_not_changed {m : List (String × String)} {n : String} {d : Device}
    (h : devChanged1 m n d = false) : applyDev1 m n d = d := by
  unfold devChanged1 at h
  unfold applyDev1
  cases hl : lookupKey n m with
  | none => rfl
  | some r =>
    rw [hl] at h
    by_cases hr : r = ""
    · simp only [hr] at h ⊢
      simp at h
      simp [h]
    · simp only [hr] at h ⊢
      simp [hr] at h
      simp [hr, h]

theorem phase1_eq :
    ∀ (m : List (String × String)) (alloc : List (String × Device)) (c : Bool),
      NodupKeys m → NodupKeys alloc →
      m.foldl updateEntryStep (alloc, c) =
        (alloc.map (fun p => (p.1, applyDev1 m p.1 p.2)),
         c || alloc.any (fun p => devChanged1 m p.1 p.2)) := by
  intro m
  induction m with
  | nil =>
    intro alloc c _ _
    simp only [List.foldl_nil]
    have h1 : alloc.map (fun p => (p.1, applyDev1 [] p.1 p.2)) = alloc := by
      apply map_id_of_forall
      intro p _
      simp [applyDev1, lookupKey]
    have h2 : alloc.any (fun p => devChanged1 [] p.1 p.2) = false := by
      simp [devChanged1, lookupKey]
    rw [h1, h2, Bool.or_false]
  | cons e rest ih =>
    intro alloc c hm ha
    obtain ⟨k, r⟩ := e
    have hm' : NodupKeys rest := by
      simpa [NodupKeys] using (List.nodup_cons.mp hm).2
    have hknot : k ∉ rest.map Prod.fst := by
      simpa [NodupKeys] using (List.nodup_cons.mp hm).1
    have hkrest : lookupKey k rest = none := by
      apply lookupKey_eq_none.mpr
      intro p hp hcontra
      exact hknot (hcontra ▸ List.mem_map_of_mem Prod.fst hp)
    simp only [List.foldl_cons]
    cases hfind : lookupKey k alloc with
    | none =>
      have hstep : updateEntryStep (alloc, c) (k, r) = (alloc, c) := by
        simp [updateEntryStep, hfind]
      have hne : ∀ p ∈ alloc, p.1 ≠ k := lookupKey_eq_none.mp hfind
      rw [hstep, ih alloc c hm' ha]
      refine Prod.ext ?_ ?_
      · apply List.map_congr_left
        intro p hp
        rw [applyDev1_cons_of_ne (Ne.symm (hne p hp))]
      · simp only
        rw [any_congr_mem (fun p hp => devChanged1_cons_of_ne (Ne.symm (hne p hp)) r p.2)]
    | some d =>
      rw [updateEntryStep_eq c r hfind]
      have hmem : (k, d) ∈ alloc := mem_of_lookup hfind
      by_cases hch : devChanged1 [(k, r)] k d = true
      · rw [if_pos hch]
        have hiso : (lookupKey k alloc).isSome := by rw [hfind]; rfl
        have hstore : storeKey k (applyDev1 [(k, r)] k d) alloc =
            alloc.map (fun p => if p.1 = k then (k, applyDev1 [(k, r)] k d) else p) :=
          storeKey_eq_map_of_nodup hiso ha _
        have hkeys : (storeKey k (applyDev1 [(k, r)] k d) alloc).map Prod.fst =
            alloc.map Prod.fst := storeKey_keys_of_mem hiso _
        have ha' : NodupKeys (storeKey k (applyDev1 [(k, r)] k d) alloc) := by
          unfold NodupKeys
          rw [hkeys]
          exact ha
        rw [ih _ true hm' ha']
        refine Prod.ext ?_ ?_
        · simp only
          rw [hstore, List.map_map]
          apply List.map_congr_left
          intro p hp
          by_cases hpk : p.1 = k
          · have hpd : d = p.2 := by
              have hlp := lookupKey_of_mem_nodup hp ha
              rw [hpk, hfind] at hlp
              exact (Option.some.injEq _ _).mp hlp
            simp only [Function.comp_apply, hpk, if_pos]
            rw [applyDev1_not_mem hkrest]
            rw [← hpd]
            rw [applyDev1_single (m := rest) r d]
          · have hkp : k ≠ p.1 := fun hc => hpk hc.symm
            simp only [Function.comp_apply, hpk, if_neg, if_false]
            rw [applyDev1_cons_of_ne hkp]
        · simp only
          have hany : alloc.any (fun p => devChanged1 ((k, r) :: rest) p.1 p.2) = true := by
            apply List.any_eq_true.mpr
            refine ⟨(k, d), hmem, ?_⟩
            simp only
            rw [devChanged1_single]
            exact hch
          simp [hany]
      · rw [if_neg hch]
        have hch' : devChanged1 [(k, r)] k d = false := by
          simpa using hch
        rw [ih alloc c hm' ha]
        refine Prod.ext ?_ ?_
        · apply List.map_congr_left
          intro p hp
          by_cases hpk : p.1 = k
          · have hpd : d = p.2 := by
              have hlp := lookupKey_of_mem_nodup hp ha
              rw [hpk, hfind] at hlp
              exact (Option.some.injEq _ _).mp hlp
            have h1 : applyDev1 rest p.1 p.2 = p.2 := by
              rw [hpk]
              exact applyDev1_not_mem hkrest p.2
            have h2 : applyDev1 ((k, r) :: rest) p.1 p.2 = p.2 := by
              rw [hpk, applyDev1_single, ← hpd]
              exact applyDev1_id_of_not_changed hch'
            rw [h1, h2]
          · rw [applyDev1_cons_of_ne (fun hc => hpk hc.symm)]
        · simp only
          have hcong : alloc.any (fun p => devChanged1 rest p.1 p.2) =
              alloc.any (fun p => devChanged1 ((k, r) :: rest) p.1 p.2) := by
            apply any_congr_mem
            intro p hp
            by_cases hpk : p.1 = k
            · have hpd : d = p.2 := by
                have hlp := lookupKey_of_mem_nodup hp ha
                rw [hpk, hfind] at hlp
                exact (Option.some.injEq _ _).mp hlp
              have h1 : devChanged1 rest p.1 p.2 = false := by
                rw [hpk]
                exact devChanged1_not_mem hkrest p.2
              have h2 : devChanged1 ((k, r) :: rest) p.1 p.2 = false := by
                rw [hpk, devChanged1_single, ← hpd]
                exact hch'
              rw [h1, h2]
            · rw [devChanged1_cons_of_ne (fun hc => hpk hc.symm)]
          rw [hcong]

theorem phase2_eq (m : List (String × String)) :
    ∀ (A acc : List (String × Device)) (c : Bool),
      A.foldl (clearMissingStep m) (acc, c) =
        (acc ++ A.map (fun p => (p.1, applyDev2 m p.1 p.2)),
         c || A.any (fun p => devChanged2 m p.1 p.2)) := by
  intro A
  induction A with
  | nil => intro acc c; simp
  | cons p rest ih =>
    intro acc c
    simp only [List.foldl_cons]
    by_cases h : ((lookupKey p.1 m).isNone && hasResourceNameAttr p.2) = true
    · have hstep : clearMissingStep m (acc, c) p =
          (acc ++ [(p.1, clearResourceNameAttr p.2)], true) := by
        simp [clearMissingStep, h]
      rw [hstep, ih]
      have h2 : applyDev2 m p.1 p.2 = clearResourceNameAttr p.2 := by
        simp [applyDev2, h]
      have h3 : devChanged2 m p.1 p.2 = true := h
      simp [h2, h3]
    · have hstep : clearMissingStep m (acc, c) p = (acc ++ [p], c) := by
        simp [clearMissingStep, h]
      rw [hstep, ih]
      have h2 : applyDev2 m p.1 p.2 = p.2 := by
        simp [applyDev2, h]
      have h3 : devChanged2 m p.1 p.2 = false := by
        simpa [devChanged2] using h
      simp [h2, h3]

theorem any_or_distrib {α : Type} (l : List α) (f g : α → Bool) :
    l.any (fun x => f x || g x) = (l.any f || l.any g) := by
  induction l with
  | nil => rfl
  | cons a t ih =>
    simp only [List.any_cons, ih]
    cases f a <;> cases g a <;> simp

theorem applyDev_eq_comp (m : List (String × String)) (n : String) (d : Device) :
    applyDev m n d = applyDev2 m n (applyDev1 m n d) := by
  unfold applyDev applyDev1 applyDev2
  cases hl : lookupKey n m with
  | none => simp [hl]
  | some r => simp [hl]

theorem devChanged_eq_or (m : List (String × String)) (n : String) (d : Device) :
    devChanged m n d = (devChanged1 m n d || devChanged2 m n (applyDev1 m n d)) := by
  unfold devChanged devChanged1 devChanged2 applyDev1
  cases hl : lookupKey n m with
  | none => simp [hl]
  | some r => simp [hl]

/-- The two iteration phases of UpdateDeviceResourceNames amount to one
per-device update, and the changed flag is set exactly when some device
record was modified. -/
theorem UpdateDeviceResourceNames_eq (alloc : List (String × Device))
    (m : List (String × String)) (hm : NodupKeys m) (ha : NodupKeys alloc) :
    UpdateDeviceResourceNames alloc m =
      (alloc.map (fun p => (p.1, applyDev m p.1 p.2)),
       alloc.any (fun p => devChanged m p.1 p.2)) := by
  unfold UpdateDeviceResourceNames
  rw [phase1_eq m alloc false hm ha]
  simp only [Bool.false_or]
  rw [phase2_eq m]
  simp only [List.nil_append, List.map_map, List.any_map]
  refine Prod.ext ?_ ?_
  · simp only
    apply List.map_congr_left
    intro p _
    simp only [Function.comp_apply]
    rw [← applyDev_eq_comp]
  · simp only
    have hpt : alloc.any (fun p => devChanged m p.1 p.2) =
        alloc.any (fun p => devChanged1 m p.1 p.2 || devChanged2 m p.1 (applyDev1 m p.1 p.2)) :=
      any_congr_mem (fun p _ => devChanged_eq_or m p.1 p.2)
    rw [hpt, any_or_distrib]
    apply congrArg
    apply any_congr_mem
    intro p _
    simp [Function.comp_apply]

theorem applyDev_none {m : List (String × String)} {n : String} (d : Device)
    (hl : lookupKey n m = none) :
    applyDev m n d = if hasResourceNameAttr d then clearResourceNameAttr d else d := by
  unfold applyDev
  rw [hl]

theorem applyDev_some {m : List (String × String)} {n : String} {r : String} (d : Device)
    (hl : lookupKey n m = some r) :
    applyDev m n d =
      if r ≠ "" then
        if resourceNameAttrMatches d r then d else setResourceNameAttr d r
      else
        if hasResourceNameAttr d then clearResourceNameAttr d else d := by
  unfold applyDev
  rw [hl]

theorem devChanged_none {m : List (String × String)} {n : String} (d : Device)
    (hl : lookupKey n m = none) : devChanged m n d = hasResourceNameAttr d := by
  unfold devChanged
  rw [hl]

theorem devChanged_some {m : List (String × String)} {n : String} {r : String} (d : Device)
    (hl : lookupKey n m = some r) :
    devChanged m n d =
      if r ≠ "" then !(resourceNameAttrMatches d r) else hasResourceNameAttr d := by
  unfold devChanged
  rw [hl]

theorem expectedTag_none {m : List (String × String)} {n : String}
    (hl : lookupKey n m = none) : expectedTag m n = none := by
  unfold expectedTag
  rw [hl]

theorem expectedTag_some {m : List (String × String)} {n : String} {r : String}
    (hl : lookupKey n m = some r) : expectedTag m n = if r = "" then none else some r := by
  unfold expectedTag
  rw [hl]

theorem resourceNameAttrMatches_iff {d : Device} {r : String} :
    resourceNameAttrMatches d r = true ↔ stringAttr d AttributeResourceName = some r := by
  unfold resourceNameAttrMatches stringAttr
  cases hl : lookupKey AttributeResourceName d.attributes with
  | none => simp
  | some attr =>
    cases hsv : attr.stringValue with
    | none => simp [hsv]
    | some v => simp [hsv]

theorem hasResourceNameAttr_false_lookup {d : Device}
    (h : hasResourceNameAttr d = false) :
    lookupKey AttributeResourceName d.attributes = none := by
  unfold hasResourceNameAttr at h
  exact Option.not_isSome_iff_eq_none.mp (by simp [h])

theorem stringAttr_clear (d : Device) :
    stringAttr (clearResourceNameAttr d) AttributeResourceName = none := by
  unfold stringAttr clearResourceNameAttr
  simp [lookupKey_removeKey_self]

theorem hasResourceNameAttr_clear (d : Device) :
    hasResourceNameAttr (clearResourceNameAttr d) = false := by
  unfold hasResourceNameAttr clearResourceNameAttr
  simp [lookupKey_removeKey_self]

theorem stringAttr_set (d : Device) (r : String) :
    stringAttr (setResourceNameAttr d r) AttributeResourceName = some r := by
  unfold stringAttr setResourceNameAttr
  simp [lookupKey_storeKey_self, Option.bind]

/-- The exposure tag a device carries after the per-device update is
exactly the tag the mapping demands. -/
theorem applyDev_tag (m : List (String × String)) (n : String) (d : Device) :
    stringAttr (applyDev m n d) AttributeResourceName = expectedTag m n := by
  cases hl : lookupKey n m with
  | none =>
    rw [applyDev_none d hl, expectedTag_none hl]
    by_cases hhas : hasResourceNameAttr d
    · simp [hhas, stringAttr_clear]
    · have hf : hasResourceNameAttr d = false := by simpa using hhas
      unfold stringAttr
      rw [if_neg (by simp [hf]), hasResourceNameAttr_false_lookup hf]
      rfl
  | some r =>
    rw [applyDev_some d hl, expectedTag_some hl]
    by_cases hr : r = ""
    · subst hr
      rw [if_neg (by simp), if_pos rfl]
      by_cases hhas : hasResourceNameAttr d
      · simp [hhas, stringAttr_clear]
      · have hf : hasResourceNameAttr d = false := by simpa using hhas
        unfold stringAttr
        rw [if_neg (by simp [hf]), hasResourceNameAttr_false_lookup hf]
        rfl
    · rw [if_pos hr, if_neg hr]
      by_cases hmatch : resourceNameAttrMatches d r
      · rw [if_pos hmatch]
        exact resourceNameAttrMatches_iff.mp hmatch
      · rw [if_neg hmatch]
        exact stringAttr_set d r

/-- Updating a device that was already updated with the same mapping is a
no-op and is never flagged as a change. -/
theorem devChanged_applyDev (m : List (String × String)) (n : String) (d : Device) :
    devChanged m n (applyDev m n d) = false := by
  cases hl : lookupKey n m with
  | none =>
    rw [devChanged_none _ hl, applyDev_none d hl]
    by_cases hhas : hasResourceNameAttr d
    · rw [if_pos hhas]
      exact hasResourceNameAttr_clear d
    · have hf : hasResourceNameAttr d = false := by simpa using hhas
      rw [if_neg (by simp [hf])]
      exact hf
  | some r =>
    rw [devChanged_some _ hl]
    by_cases hr : r = ""
    · subst hr
      rw [if_neg (by simp), applyDev_some d hl, if_neg (by simp)]
      by_cases hhas : hasResourceNameAttr d
      · rw [if_pos hhas]
        exact hasResourceNameAttr_clear d
      · have hf : hasResourceNameAttr d = false := by simpa using hhas
        rw [if_neg (by simp [hf])]
        exact hf
    · rw [if_pos hr]
      have htag : stringAttr (applyDev m n d) AttributeResourceName = some r := by
        rw [applyDev_tag, expectedTag_some hl, if_neg hr]
      rw [resourceNameAttrMatches_iff.mpr htag]
      rfl

theorem applyDev_of_not_changed {m : List (String × String)} {n : String} {d : Device}
    (h : devChanged m n d = false) : applyDev m n d = d := by
  cases hl : lookupKey n m with
  | none =>
    rw [devChanged_none _ hl] at h
    rw [applyDev_none d hl, if_neg (by simp [h])]
  | some r =>
    rw [devChanged_some _ hl] at h
    rw [applyDev_some d hl]
    by_cases hr : r = ""
    · subst hr
      rw [if_neg (by simp)] at h
      rw [if_neg (by simp), if_neg (by simp [h])]
    · rw [if_pos hr] at h
      have hm2 : resourceNameAttrMatches d r = true := by
        simpa using h
      rw [if_pos hr, if_pos hm2]

theorem applyDev_ne_of_changed {m : List (String × String)} {n : String} {d : Device}
    (h : devChanged m n d = true) : applyDev m n d ≠ d := by
  cases hl : lookupKey n m with
  | none =>
    rw [devChanged_none _ hl] at h
    rw [applyDev_none d hl, if_pos h]
    intro hcontra
    have hc := hasResourceNameAttr_clear d
    rw [hcontra, h] at hc
    cases hc
  | some r =>
    rw [devChanged_some _ hl] at h
    rw [applyDev_some d hl]
    by_cases hr : r = ""
    · subst hr
      rw [if_neg (by simp)] at h
      rw [if_neg (by simp), if_pos h]
      intro hcontra
      have hc := hasResourceNameAttr_clear d
      rw [hcontra, h] at hc
      cases hc
    · rw [if_pos hr] at h
      have hnm : resourceNameAttrMatches d r = false := by
        simpa using h
      rw [if_pos hr, if_neg (by simp [hnm])]
      intro hcontra
      have hst := stringAttr_set d r
      rw [hcontra] at hst
      have hcm := resourceNameAttrMatches_iff.mpr hst
      rw [hnm] at hcm
      cases hcm

theorem keys_map_update (alloc : List (String × Device)) (f : String → Device → Device) :
    (alloc.map (fun p => (p.1, f p.1 p.2))).map Prod.fst = alloc.map Prod.fst := by
  rw [List.map_map]
  apply List.map_congr_left
  intro p _
  rfl

/-! ### Claims C4 and C5: tag-update semantics and idempotence -/

/-- C4: for every device in the current snapshot and every call to
UpdateDeviceResourceNames with a name-to-tag mapping, the resourceName
attribute of the device ends up set to the mapped value when the mapping
holds a non-empty value for the device, and cleared otherwise, including
when the device has no entry in the mapping at all; the snapshot keeps
exactly the same device names. -/
theorem c4_tag_update_semantics (alloc : List (String × Device)) (m : List (String × String))
    (hm : NodupKeys m) (ha : NodupKeys alloc) (n : String) (d : Device)
    (hmem : (n, d) ∈ alloc) :
    ((UpdateDeviceResourceNames alloc m).1.map Prod.fst = alloc.map Prod.fst) ∧
    ∃ d', (n, d') ∈ (UpdateDeviceResourceNames alloc m).1 ∧
      stringAttr d' AttributeResourceName = expectedTag m n := by
  rw [UpdateDeviceResourceNames_eq alloc m hm ha]
  refine ⟨keys_map_update alloc (applyDev m), ?_⟩
  refine ⟨applyDev m n d, ?_, applyDev_tag m n d⟩
  simpa using List.mem_map_of_mem (fun p => (p.1, applyDev m p.1 p.2)) hmem

/-- C4 witness: the state_test.go scenario, devA mapped to a tag and devB
absent from the mapping. -/
theorem c4_tag_update_semantics_witness :
    ((UpdateDeviceResourceNames
        [("devA", { name := "devA" }), ("devB", { name := "devB" })]
        [("devA", "vendor.com/resA")]).1.map Prod.fst =
      [("devA", ({ name := "devA" } : Device)), ("devB", { name := "devB" })].map Prod.fst) ∧
    ∃ d', ("devB", d') ∈ (UpdateDeviceResourceNames
        [("devA", { name := "devA" }), ("devB", { name := "devB" })]
        [("devA", "vendor.com/resA")]).1 ∧
      stringAttr d' AttributeResourceName = expectedTag [("devA", "vendor.com/resA")] "devB" :=
  c4_tag_update_semantics
    [("devA", { name := "devA" }), ("devB", { name := "devB" })]
    [("devA", "vendor.com/resA")] (by unfold NodupKeys; decide) (by unfold NodupKeys; decide) "devB" { name := "devB" }
    (by decide)

/-- C5: running UpdateDeviceResourceNames a second time with the same
mapping changes nothing and reports no change (so the registered
republish notification fires at most once), and whenever a run reports a
change some device record was actually modified. -/
theorem c5_idempotent_tag_update (alloc : List (String × Device)) (m : List (String × String))
    (hm : NodupKeys m) (ha : NodupKeys alloc) :
    UpdateDeviceResourceNames (UpdateDeviceResourceNames alloc m).1 m =
      ((UpdateDeviceResourceNames alloc m).1, false) ∧
    ((UpdateDeviceResourceNames alloc m).2 = true →
      ∃ n d d', (n, d) ∈ alloc ∧ (n, d') ∈ (UpdateDeviceResourceNames alloc m).1 ∧ d' ≠ d) := by
  have heq := UpdateDeviceResourceNames_eq alloc m hm ha
  constructor
  · have ha1 : NodupKeys (UpdateDeviceResourceNames alloc m).1 := by
      unfold NodupKeys
      rw [heq]
      simp only
      rw [keys_map_update]
      exact ha
    rw [UpdateDeviceResourceNames_eq _ m hm ha1]
    rw [heq]
    simp only
    refine Prod.ext ?_ ?_
    · simp only
      rw [List.map_map]
      apply List.map_congr_left
      intro p _
      simp only [Function.comp_apply]
      rw [applyDev_of_not_changed (devChanged_applyDev m p.1 p.2)]
    · simp only
      rw [List.any_map]
      have hz : alloc.any ((fun p => devChanged m p.1 p.2) ∘ fun p => (p.1, applyDev m p.1 p.2)) =
          alloc.any (fun _ => false) := by
        apply any_congr_mem
        intro p _
        simp only [Function.comp_apply]
        exact devChanged_applyDev m p.1 p.2
      rw [hz]
      simp
  · intro hflag
    rw [heq] at hflag
    simp only at hflag
    obtain ⟨p, hp, hch⟩ := List.any_eq_true.mp hflag
    refine ⟨p.1, p.2, applyDev m p.1 p.2, by simpa using hp, ?_,
      applyDev_ne_of_changed hch⟩
    rw [heq]
    simp only
    simpa using List.mem_map_of_mem (fun q => (q.1, applyDev m q.1 q.2)) hp

/-- C5 witness: the state_test.go scenario, tagging devA twice with the
same mapping. -/
theorem c5_idempotent_tag_update_witness :
    UpdateDeviceResourceNames
        (UpdateDeviceResourceNames [("devA", { name := "devA" })]
          [("devA", "vendor.com/resA")]).1 [("devA", "vendor.com/resA")] =
      ((UpdateDeviceResourceNames [("devA", { name := "devA" })]
          [("devA", "vendor.com/resA")]).1, false) ∧
    ((UpdateDeviceResourceNames [("devA", { name := "devA" })]
        [("devA", "vendor.com/resA")]).2 = true →
      ∃ n d d', (n, d) ∈ [("devA", ({ name := "devA" } : Device))] ∧
        (n, d') ∈ (UpdateDeviceResourceNames [("devA", { name := "devA" })]
          [("devA", "vendor.com/resA")]).1 ∧ d' ≠ d) :=
  c5_idempotent_tag_update [("devA", { name := "devA" })] [("devA", "vendor.com/resA")]
    (by unfold NodupKeys; decide) (by unfold NodupKeys; decide)

/-! ### Claim C1: opt-in invariant -/

theorem mem_GetAdvertisableDevices (alloc : List (String × Device)) (n : String) (d : Device) :
    (n, d) ∈ GetAdvertisableDevices alloc ↔
      (n, d) ∈ alloc ∧ ∃ v, stringAttr d AttributeResourceName = some v ∧ v ≠ "" := by
  unfold GetAdvertisableDevices
  rw [List.mem_filter]
  apply and_congr_right
  intro _
  simp only
  unfold stringAttr
  cases hl : lookupKey AttributeResourceName d.attributes with
  | none => simp
  | some attr =>
    cases hsv : attr.stringValue with
    | none => simp [hsv]
    | some v =>
      simp only [hsv, Option.some_bind]
      constructor
      · intro hb
        exact ⟨v, rfl, by simpa using hb⟩
      · intro ⟨s, hs, hne⟩
        have : v = s := by simpa using hs
        subst this
        simpa using hne

theorem GetAdvertisableDevices_after_clear (alloc : List (String × Device)) :
    GetAdvertisableDevices (UpdateDeviceResourceNames alloc []).1 = [] := by
  have hstep : UpdateDeviceResourceNames alloc [] =
      alloc.foldl (clearMissingStep []) ([], false) := rfl
  rw [hstep, phase2_eq]
  simp only [List.nil_append]
  unfold GetAdvertisableDevices
  apply List.filter_eq_nil_iff.mpr
  intro p hp
  obtain ⟨q, hq, hpq⟩ := List.mem_map.mp hp
  have hattr : lookupKey AttributeResourceName p.2.attributes = none := by
    rw [← hpq]
    simp only
    unfold applyDev2
    by_cases hhas : hasResourceNameAttr q.2
    · rw [if_pos (by simp [hhas, lookupKey])]
      exact hasResourceNameAttr_false_lookup (hasResourceNameAttr_clear q.2)
    · have hf : hasResourceNameAttr q.2 = false := by simpa using hhas
      rw [if_neg (by simp [hf])]
      exact hasResourceNameAttr_false_lookup hf
  simp [hattr]

/-- C1: a device appears in the advertisable set returned for publishing
exactly when it is in the allocatable snapshot with a present, non-empty
resourceName (exposure tag) attribute; and with zero policies a reconcile
clears every tag, so the advertisable set is empty no matter how many
devices were discovered. -/
theorem c1_opt_in_invariant :
    (∀ (alloc : List (String × Device)) (n : String) (d : Device),
      (n, d) ∈ GetAdvertisableDevices alloc ↔
        (n, d) ∈ alloc ∧ ∃ v, stringAttr d AttributeResourceName = some v ∧ v ≠ "") ∧
    (∀ (nodeLabels : List (String × String)) (alloc : List (String × Device)),
      GetAdvertisableDevices (Reconcile nodeLabels [] alloc).alloc = []) := by
  constructor
  · exact mem_GetAdvertisableDevices
  · intro nodeLabels alloc
    have hrec : (Reconcile nodeLabels [] alloc).alloc = (UpdateDeviceResourceNames alloc []).1 := rfl
    rw [hrec]
    exact GetAdvertisableDevices_after_clear alloc

/-! ### Claim C2: ambiguous-policy handling -/

/-- A device already carrying an exposure tag, as left by an earlier
one-policy reconcile. -/
def c2TaggedDevice : Device :=
  { name := "devA",
    attributes := [(AttributeResourceName, { stringValue := some "vendor.com/resA" })] }

/-- Two policies whose empty node selectors both match every node. -/
def c2PolicyOne : Policy := { name := "p1" }

def c2PolicyTwo : Policy := { name := "p2" }

/-- C2 (code bug): with two policies matching the node, Reconcile resets
the active policy to none but never invokes UpdateDeviceResourceNames, so
a previously tagged device keeps its tag and stays advertisable; the
zero-match run on the same state does invoke the update and clears it. -/
theorem c2_ambiguous_policy_fail_safe_gap :
    (Reconcile [] [c2PolicyOne, c2PolicyTwo] [("devA", c2TaggedDevice)]).currentResourcePolicy
        = none ∧
    (Reconcile [] [c2PolicyOne, c2PolicyTwo] [("devA", c2TaggedDevice)]).updateCalled = false ∧
    (Reconcile [] [c2PolicyOne, c2PolicyTwo] [("devA", c2TaggedDevice)]).alloc
        = [("devA", c2TaggedDevice)] ∧
    GetAdvertisableDevices (Reconcile [] [c2PolicyOne, c2PolicyTwo]
        [("devA", c2TaggedDevice)]).alloc = [("devA", c2TaggedDevice)] ∧
    (Reconcile [] [] [("devA", c2TaggedDevice)]).updateCalled = true ∧
    GetAdvertisableDevices (Reconcile [] [] [("devA", c2TaggedDevice)]).alloc = [] := by
  decide

/-! ### Claim C10: empty node selector -/

/-- C10: a policy with an empty nodeSelector matches every node, so it is
always part of the matching subset that drives the zero/one/many
active-policy decision. -/
theorem c10_empty_node_selector_matches_all :
    (∀ nodeLabels : List (String × String), matchesNodeSelector nodeLabels [] = true) ∧
    (∀ (nodeLabels : List (String × String)) (policies : List Policy) (p : Policy),
      p ∈ policies → p.nodeSelector = [] → p ∈ matchingPolicies nodeLabels policies) := by
  constructor
  · intro nodeLabels
    rfl
  · intro nodeLabels policies p hp hsel
    unfold matchingPolicies
    apply List.mem_filter.mpr
    refine ⟨hp, ?_⟩
    rw [hsel]
    rfl

/-- C10 witness: a selector-free policy is matched on a labelled node. -/
theorem c10_empty_node_selector_witness :
    ({ name := "p" } : Policy) ∈
      matchingPolicies [("kubernetes.io/hostname", "node1")] [{ name := "p" }] :=
  c10_empty_node_selector_matches_all.2 [("kubernetes.io/hostname", "node1")]
    [{ name := "p" }] { name := "p" } (by decide) rfl

/-! ### Claim C7: filter evaluation -/

theorem checkAttrPredicate_iff (pred : List String) (v : Option String) :
    checkAttrPredicate pred v = true ↔ PredicateHolds pred v := by
  unfold checkAttrPredicate PredicateHolds
  by_cases h : pred.isEmpty
  · have hnil : pred = [] := by simpa using h
    subst hnil
    simp
  · have hne : pred ≠ [] := by simpa using h
    rw [if_neg (by simpa using h)]
    cases v with
    | none => simp [hne]
    | some s => simp [hne, stringSliceContains, List.any_eq_true]

/-- C7: a device matches a config exactly when the filter list is empty or
some filter matches (OR across filters), and it matches one filter exactly
when every evaluated attribute predicate holds (AND), an empty predicate
list passing every device and a non-empty one requiring the attribute
value to be present and contained in the predicate set. -/
theorem c7_filter_evaluation :
    (∀ (d : Device) (filters : List ResourceFilter),
      deviceMatchesFilters d filters = true ↔
        (filters = [] ∨ ∃ f ∈ filters, deviceMatchesFilter d f = true)) ∧
    (∀ (d : Device) (f : ResourceFilter),
      deviceMatchesFilter d f = true ↔ DeviceMatchesFilterSpec d f) := by
  constructor
  · intro d filters
    unfold deviceMatchesFilters
    by_cases h : filters.isEmpty
    · have hnil : filters = [] := by simpa using h
      subst hnil
      simp
    · have hne : filters ≠ [] := by simpa using h
      rw [if_neg (by simpa using h)]
      simp [hne, List.any_eq_true]
  · intro d f
    unfold deviceMatchesFilter DeviceMatchesFilterSpec
    simp only [Bool.and_eq_true]
    rw [checkAttrPredicate_iff, checkAttrPredicate_iff, checkAttrPredicate_iff,
      checkAttrPredicate_iff, checkAttrPredicate_iff, checkAttrPredicate_iff]
    tauto

/-! ### Claim C6: first-match-within-policy -/

theorem assign_lookup_frame (config : Config) (n : String) :
    ∀ (alloc : List (String × Device)) (acc : List (String × String)),
      (∀ p ∈ alloc, p.1 ≠ n) →
      lookupKey n (assignConfigStep alloc config acc) = lookupKey n acc := by
  intro alloc
  induction alloc with
  | nil => intro acc _; rfl
  | cons q rest ih =>
    intro acc hne
    unfold assignConfigStep
    rw [List.foldl_cons]
    have hq : q.1 ≠ n := hne q (by simp)
    have hrest : ∀ p ∈ rest, p.1 ≠ n := fun p hp => hne p (by simp [hp])
    have hstep : ∀ acc2 : List (String × String),
        lookupKey n ((if (lookupKey q.1 acc2).isSome then acc2
          else if deviceMatchesFilters q.2 config.resourceFilters then
            acc2 ++ [(q.1, config.resourceName)] else acc2)) = lookupKey n acc2 := by
      intro acc2
      by_cases h1 : (lookupKey q.1 acc2).isSome
      · rw [if_pos h1]
      · rw [if_neg h1]
        by_cases h2 : deviceMatchesFilters q.2 config.resourceFilters
        · rw [if_pos h2, lookupKey_append]
          cases hl : lookupKey n acc2 with
          | none => simp [lookupKey, hq]
          | some v => rfl
        · rw [if_neg h2]
    have := ih (if (lookupKey q.1 acc).isSome then acc
      else if deviceMatchesFilters q.2 config.resourceFilters then
        acc ++ [(q.1, config.resourceName)] else acc) hrest
    unfold assignConfigStep at this
    rw [this, hstep acc]

theorem assign_lookup_self {alloc : List (String × Device)} (ha : NodupKeys alloc)
    {n : String} {d : Device} (hmem : (n, d) ∈ alloc) (config : Config)
    (acc : List (String × String)) :
    lookupKey n (assignConfigStep alloc config acc) =
      match lookupKey n acc with
      | some v => some v
      | none =>
        if deviceMatchesFilters d config.resourceFilters then some config.resourceName
        else none := by
  induction alloc generalizing acc with
  | nil => cases hmem
  | cons q rest ih =>
    have hnd' : NodupKeys rest := by
      simpa [NodupKeys] using (List.nodup_cons.mp ha).2
    unfold assignConfigStep
    rw [List.foldl_cons]
    rw [List.mem_cons] at hmem
    rcases hmem with heq | hmem
    · subst heq
      have hrest : ∀ p ∈ rest, p.1 ≠ n := by
        intro p hp hcontra
        have hk : p.1 ∈ rest.map Prod.fst := List.mem_map_of_mem Prod.fst hp
        rw [hcontra] at hk
        exact (List.nodup_cons.mp ha).1 hk
      have happ : (if (lookupKey (n, d).1 acc).isSome then acc
          else if deviceMatchesFilters (n, d).2 config.resourceFilters then
            acc ++ [((n, d).1, config.resourceName)]
          else acc) =
          (if (lookupKey n acc).isSome then acc
           else if deviceMatchesFilters d config.resourceFilters then
             acc ++ [(n, config.resourceName)]
           else acc) := rfl
      rw [happ]
      have hframe := assign_lookup_frame config n rest
        (if (lookupKey n acc).isSome then acc
         else if deviceMatchesFilters d config.resourceFilters then
           acc ++ [(n, config.resourceName)]
         else acc) hrest
      unfold assignConfigStep at hframe
      rw [hframe]
      by_cases h1 : (lookupKey n acc).isSome
      · rw [if_pos h1]
        obtain ⟨v, hv⟩ := Option.isSome_iff_exists.mp h1
        rw [hv]
      · rw [if_neg h1]
        have hnone : lookupKey n acc = none := Option.not_isSome_iff_eq_none.mp h1
        rw [hnone]
        by_cases h2 : deviceMatchesFilters d config.resourceFilters
        · rw [if_pos h2, if_pos h2, lookupKey_append, hnone]
          simp [lookupKey]
        · rw [if_neg h2, if_neg h2, hnone]
    · have hq : q.1 ≠ n := by
        intro hcontra
        have hk : n ∈ rest.map Prod.fst := List.mem_map_of_mem Prod.fst hmem
        rw [← hcontra] at hk
        exact (List.nodup_cons.mp ha).1 hk
      have hstep : lookupKey n (if (lookupKey q.1 acc).isSome then acc
          else if deviceMatchesFilters q.2 config.resourceFilters then
            acc ++ [(q.1, config.resourceName)] else acc) = lookupKey n acc := by
        by_cases h1 : (lookupKey q.1 acc).isSome
        · rw [if_pos h1]
        · rw [if_neg h1]
          by_cases h2 : deviceMatchesFilters q.2 config.resourceFilters
          · rw [if_pos h2, lookupKey_append]
            cases hl : lookupKey n acc with
            | none => simp [lookupKey, hq]
            | some v => rfl
          · rw [if_neg h2]
      have hrec := ih hnd' hmem (if (lookupKey q.1 acc).isSome then acc
        else if deviceMatchesFilters q.2 config.resourceFilters then
          acc ++ [(q.1, config.resourceName)] else acc)
      unfold assignConfigStep at hrec
      rw [hrec, hstep]

/-- The predicate deciding, inside one policy, whether a config assigns
its tag to a device: non-empty resourceName and a filter match. -/
def configAssigns (d : Device) (config : Config) : Bool :=
  !(config.resourceName == "") && deviceMatchesFilters d config.resourceFilters

theorem outer_lookup {alloc : List (String × Device)} (ha : NodupKeys alloc)
    {n : String} {d : Device} (hmem : (n, d) ∈ alloc) :
    ∀ (configs : List Config) (acc : List (String × String)),
      lookupKey n (configs.foldl (fun acc config =>
          if config.resourceName = "" then acc else assignConfigStep alloc config acc) acc) =
        match lookupKey n acc with
        | some v => some v
        | none => (configs.find? (configAssigns d)).map (fun c => c.resourceName) := by
  intro configs
  induction configs with
  | nil =>
    intro acc
    simp only [List.foldl_nil, List.find?_nil, Option.map_none]
    cases lookupKey n acc <;> rfl
  | cons c rest ih =>
    intro acc
    rw [List.foldl_cons]
    by_cases hr : c.resourceName = ""
    · rw [if_pos hr]
      rw [ih acc]
      have hskip : configAssigns d c = false := by
        simp [configAssigns, hr]
      rw [List.find?_cons, hskip]
    · rw [if_neg hr]
      rw [ih (assignConfigStep alloc c acc)]
      rw [assign_lookup_self ha hmem c acc]
      cases hl : lookupKey n acc with
      | some v => rfl
      | none =>
        simp only
        by_cases h2 : deviceMatchesFilters d c.resourceFilters
        · have hassign : configAssigns d c = true := by
            simp [configAssigns, hr, h2]
          rw [if_pos h2, List.find?_cons, hassign]
          rfl
        · have hskip : configAssigns d c = false := by
            simp [configAssigns, h2]
          rw [if_neg h2, List.find?_cons, hskip]

theorem getFilteredDeviceResourceMap_lookup {policy : Policy}
    {alloc : List (String × Device)} (ha : NodupKeys alloc) {n : String} {d : Device}
    (hmem : (n, d) ∈ alloc) :
    lookupKey n (getFilteredDeviceResourceMap (some policy) alloc) =
      (policy.configs.find? (configAssigns d)).map (fun c => c.resourceName) := by
  unfold getFilteredDeviceResourceMap
  rw [outer_lookup ha hmem policy.configs []]
  rfl

/-- C6: within the single active policy, configs are evaluated in declared
order and a device receives the tag of the first config with a non-empty
resourceName whose filters it matches; later configs never reassign it. -/
theorem c6_first_match_within_policy (policy : Policy) (alloc : List (String × Device))
    (ha : NodupKeys alloc) (n : String) (d : Device) (hmem : (n, d) ∈ alloc) :
    lookupKey n (getFilteredDeviceResourceMap (some policy) alloc) =
      (policy.configs.find? (configAssigns d)).map (fun c => c.resourceName) :=
  getFilteredDeviceResourceMap_lookup ha hmem

/-- The spec example: config A filters on vendor 8086, config B on pfName
eth0, and the device matches both. -/
def c6ExampleDevice : Device :=
  { name := "d0",
    attributes :=
      [(AttributeVendorID, { stringValue := some "8086" }),
       (AttributePFName, { stringValue := some "eth0" })] }

def c6ExamplePolicy : Policy :=
  { name := "p",
    configs :=
      [{ resourceName := "A", resourceFilters := [{ vendors := ["8086"] }] },
       { resourceName := "B", resourceFilters := [{ pfNames := ["eth0"] }] }] }

/-- C6 witness: the device matching both configs receives tag A. -/
theorem c6_first_match_within_policy_witness :
    lookupKey "d0" (getFilteredDeviceResourceMap (some c6ExamplePolicy)
      [("d0", c6ExampleDevice)]) = some "A" :=
  Eq.trans
    (c6_first_match_within_policy c6ExamplePolicy [("d0", c6ExampleDevice)]
      (by unfold NodupKeys; decide) "d0" c6ExampleDevice (by decide))
    (by decide)

/-! ### Claim C3: drift detection in the periodic sync cycle -/

theorem nodupKeys_append_key {β : Type} {acc : List (String × β)} {k : String}
    (hnd : NodupKeys acc) (hnone : lookupKey k acc = none) (v : β) :
    NodupKeys (acc ++ [(k, v)]) := by
  unfold NodupKeys at hnd ⊢
  rw [List.map_append]
  rw [List.nodup_append]
  refine ⟨hnd, by simp, ?_⟩
  intro x hx
  have hne := lookupKey_eq_none.mp hnone
  obtain ⟨p, hp, hpx⟩ := List.mem_map.mp hx
  simp only [List.map_cons, List.map_nil]
  intro hcontra
  rw [List.mem_singleton] at hcontra
  exact hne p hp (by rw [hpx, hcontra])

theorem nodupKeys_assignConfigStep (config : Config) :
    ∀ (alloc : List (String × Device)) (acc : List (String × String)),
      NodupKeys acc → NodupKeys (assignConfigStep alloc config acc) := by
  intro alloc
  induction alloc with
  | nil => intro acc hnd; exact hnd
  | cons q rest ih =>
    intro acc hnd
    unfold assignConfigStep
    rw [List.foldl_cons]
    have hstep : NodupKeys (if (lookupKey q.1 acc).isSome then acc
        else if deviceMatchesFilters q.2 config.resourceFilters then
          acc ++ [(q.1, config.resourceName)] else acc) := by
      by_cases h1 : (lookupKey q.1 acc).isSome
      · rw [if_pos h1]
        exact hnd
      · rw [if_neg h1]
        by_cases h2 : deviceMatchesFilters q.2 config.resourceFilters
        · rw [if_pos h2]
          exact nodupKeys_append_key hnd (Option.not_isSome_iff_eq_none.mp h1) _
        · rw [if_neg h2]
          exact hnd
    have := ih (if (lookupKey q.1 acc).isSome then acc
      else if deviceMatchesFilters q.2 config.resourceFilters then
        acc ++ [(q.1, config.resourceName)] else acc) hstep
    unfold assignConfigStep at this
    exact this

theorem nodupKeys_getFilteredDeviceResourceMap (pol : Option Policy)
    (alloc : List (String × Device)) :
    NodupKeys (getFilteredDeviceResourceMap pol alloc) := by
  cases pol with
  | none => exact List.nodup_nil
  | some policy =>
    unfold getFilteredDeviceResourceMap
    have hgen : ∀ (configs : List Config) (acc : List (String × String)), NodupKeys acc →
        NodupKeys (configs.foldl (fun acc config =>
          if config.resourceName = "" then acc else assignConfigStep alloc config acc) acc) := by
      intro configs
      induction configs with
      | nil => intro acc hnd; exact hnd
      | cons c rest ih =>
        intro acc hnd
        rw [List.foldl_cons]
        by_cases hr : c.resourceName = ""
        · rw [if_pos hr]
          exact ih acc hnd
        · rw [if_neg hr]
          exact ih _ (nodupKeys_assignConfigStep c alloc acc hnd)
    exact hgen policy.configs [] List.nodup_nil

/-- C3: whenever the discovery comparison reports a change, the sync cycle
stores the new snapshot, re-runs the policy reconciler over it, invokes
the publisher exactly once, and a new device matching the single active
policy comes out tagged with the first matching config. -/
theorem c3_drift_detection (nodeLabels : List (String × String)) (policies : List Policy)
    (current newDevs : List (String × Device))
    (hchanged : deviceSetsAreDifferent current newDevs = true) :
    (syncDevicesAndResources nodeLabels policies current newDevs).1 =
      [SyncEvent.setAllocatableDevices newDevs, SyncEvent.reconcileTriggered,
       SyncEvent.publishResources] ∧
    (syncDevicesAndResources nodeLabels policies current newDevs).1.countP
      (fun e => decide (e = SyncEvent.publishResources)) = 1 ∧
    (syncDevicesAndResources nodeLabels policies current newDevs).2 =
      (Reconcile nodeLabels policies newDevs).alloc ∧
    (∀ p, matchingPolicies nodeLabels policies = [p] →
      NodupKeys newDevs →
      ∀ n d, (n, d) ∈ newDevs →
      ∀ c, p.configs.find? (configAssigns d) = some c →
      ∃ d', (n, d') ∈ (syncDevicesAndResources nodeLabels policies current newDevs).2 ∧
        stringAttr d' AttributeResourceName = some c.resourceName) := by
  have hsync : syncDevicesAndResources nodeLabels policies current newDevs =
      ([SyncEvent.setAllocatableDevices newDevs, SyncEvent.reconcileTriggered,
        SyncEvent.publishResources], (Reconcile nodeLabels policies newDevs).alloc) := by
    unfold syncDevicesAndResources
    rw [if_pos hchanged]
  refine ⟨by rw [hsync], by rw [hsync]; simp, by rw [hsync], ?_⟩
  intro p hmatch hnodup n d hmem c hfind
  rw [hsync]
  simp only
  have hrec : Reconcile nodeLabels policies newDevs =
      ⟨some p, true,
        getFilteredDeviceResourceMap (some p) newDevs,
        (UpdateDeviceResourceNames newDevs
          (getFilteredDeviceResourceMap (some p) newDevs)).1,
        (UpdateDeviceResourceNames newDevs
          (getFilteredDeviceResourceMap (some p) newDevs)).2⟩ := by
    unfold Reconcile
    rw [hmatch]
  rw [hrec]
  simp only
  have hm : NodupKeys (getFilteredDeviceResourceMap (some p) newDevs) :=
    nodupKeys_getFilteredDeviceResourceMap (some p) newDevs
  rw [UpdateDeviceResourceNames_eq newDevs _ hm hnodup]
  simp only
  refine ⟨applyDev (getFilteredDeviceResourceMap (some p) newDevs) n d, ?_, ?_⟩
  · simpa using List.mem_map_of_mem
      (fun q => (q.1, applyDev (getFilteredDeviceResourceMap (some p) newDevs) q.1 q.2)) hmem
  · rw [applyDev_tag]
    have hl : lookupKey n (getFilteredDeviceResourceMap (some p) newDevs) =
        some c.resourceName := by
      rw [getFilteredDeviceResourceMap_lookup hnodup hmem, hfind]
      rfl
    rw [expectedTag_some hl]
    have hpred := List.find?_some hfind
    have hne : c.resourceName ≠ "" := by
      unfold configAssigns at hpred
      rw [Bool.and_eq_true] at hpred
      simpa using hpred.1
    rw [if_neg hne]

/-- Drift scenario of the spec: devA already known, devB newly discovered
and matching the single active policy by vendor. -/
def c3DeviceA : Device :=
  { name := "devA", attributes := [(AttributeVendorID, { stringValue := some "8086" })] }

def c3DeviceB : Device :=
  { name := "devB", attributes := [(AttributeVendorID, { stringValue := some "15b3" })] }

def c3Config : Config :=
  { resourceName := "vendor.com/resB", resourceFilters := [{ vendors := ["15b3"] }] }

def c3Policy : Policy := { name := "pol", configs := [c3Config] }

/-- C3 witness: after the drift cycle the newly discovered devB carries
the tag of the active policy config it matches. -/
theorem c3_drift_detection_witness :
    ∃ d', ("devB", d') ∈ (syncDevicesAndResources [] [c3Policy]
        [("devA", c3DeviceA)] [("devA", c3DeviceA), ("devB", c3DeviceB)]).2 ∧
      stringAttr d' AttributeResourceName = some "vendor.com/resB" :=
  (c3_drift_detection [] [c3Policy] [("devA", c3DeviceA)]
      [("devA", c3DeviceA), ("devB", c3DeviceB)] (by decide)).2.2.2
    c3Policy (by decide) (by unfold NodupKeys; decide) "devB" c3DeviceB (by decide)
    c3Config (by decide)

/-! ### Claim C8: RDMA resolution -/

/-- C8: for an RDMA-capable device, zero resolved RDMA devices or more
than one is a hard error carrying no device nodes and no environment
entries, while exactly one resolved device yields one device node per
character device and environment entries including the resolved RDMA
device name. -/
theorem c8_rdma_resolution (deviceInfo : Device) (deviceName : String)
    (rdmaDevicesForPci : List String) (charDevicesOf : String → Except String (List String))
    (hcap : isRDMACapable deviceInfo = true) :
    (rdmaDevicesForPci = [] →
      ∃ e, handleRDMADevice deviceInfo deviceName rdmaDevicesForPci charDevicesOf =
        Except.error e) ∧
    (2 ≤ rdmaDevicesForPci.length →
      ∃ e, handleRDMADevice deviceInfo deviceName rdmaDevicesForPci charDevicesOf =
        Except.error e) ∧
    (∀ x chars, rdmaDevicesForPci = [x] → charDevicesOf x = Except.ok chars → chars ≠ [] →
      ∃ nodes envs,
        handleRDMADevice deviceInfo deviceName rdmaDevicesForPci charDevicesOf =
          Except.ok (nodes, envs) ∧
        nodes.length = chars.length ∧
        ("SRIOVNETWORK_" ++ sanitizeEnvName deviceName ++ "_RDMA_DEVICE=" ++ x) ∈ envs) := by
  refine ⟨?_, ?_, ?_⟩
  · intro hnil
    subst hnil
    refine ⟨"no RDMA devices found", ?_⟩
    unfold handleRDMADevice
    simp [hcap]
  · intro hlen
    match rdmaDevicesForPci, hlen with
    | x :: y :: rest, _ =>
      refine ⟨"expected exactly one RDMA device", ?_⟩
      unfold handleRDMADevice
      simp [hcap]
  · intro x chars hone hok hne
    subst hone
    refine ⟨chars.map (fun p => ⟨p, p, "c"⟩),
      chars.map (rdmaEnvEntry deviceName) ++
        ["SRIOVNETWORK_" ++ sanitizeEnvName deviceName ++ "_RDMA_DEVICE=" ++ x], ?_, ?_, ?_⟩
    · unfold handleRDMADevice
      simp [hcap, hok, hne]
    · simp
    · simp

/-- C8 witness: the state_test.go scenarios, one resolved mlx5_0 device
with four character devices, and the zero and two-device error cases. -/
theorem c8_rdma_resolution_witness :
    ∃ nodes envs,
      handleRDMADevice
          { name := "d", attributes := [(AttributeRDMACapable, { boolValue := some true })] }
          "device-1" ["mlx5_0"]
          (fun _ => Except.ok ["/dev/infiniband/uverbs0", "/dev/infiniband/umad0"]) =
        Except.ok (nodes, envs) ∧
      nodes.length = (["/dev/infiniband/uverbs0", "/dev/infiniband/umad0"] : List String).length ∧
      ("SRIOVNETWORK_" ++ sanitizeEnvName "device-1" ++ "_RDMA_DEVICE=" ++ "mlx5_0") ∈ envs :=
  (c8_rdma_resolution
      { name := "d", attributes := [(AttributeRDMACapable, { boolValue := some true })] }
      "device-1" ["mlx5_0"]
      (fun _ => Except.ok ["/dev/infiniband/uverbs0", "/dev/infiniband/umad0"])
      (by decide)).2.2 "mlx5_0" ["/dev/infiniband/uverbs0", "/dev/infiniband/umad0"]
    rfl rfl (by decide)

/-! ### Claim C9: claim release -/

/-- The restore calls a release pass makes, in order. -/
def restoreCalls (preparedDevices : List PreparedDevice) : List ReleaseAction :=
  (preparedDevices.filter needsDriverRestore).map
    (fun r => ReleaseAction.restoreDriver r.pciAddress r.originalDriver)

/-- The aggregated error messages of a release pass. -/
def restoreErrors (restoreError : String → String → Option String)
    (preparedDevices : List PreparedDevice) : List String :=
  (preparedDevices.filter needsDriverRestore).filterMap
    (fun r => (restoreError r.pciAddress r.originalDriver).map
      (fun e => "failed to restore original driver: " ++ e))

theorem unprepareDevices_fold (restoreError : String → String → Option String) :
    ∀ (devs : List PreparedDevice) (acc : List ReleaseAction × List String),
      devs.foldl (fun acc r =>
        if needsDriverRestore r then
          match restoreError r.pciAddress r.originalDriver with
          | none => (acc.1 ++ [ReleaseAction.restoreDriver r.pciAddress r.originalDriver], acc.2)
          | some e =>
            (acc.1 ++ [ReleaseAction.restoreDriver r.pciAddress r.originalDriver],
             acc.2 ++ ["failed to restore original driver: " ++ e])
        else acc) acc =
      (acc.1 ++ restoreCalls devs, acc.2 ++ restoreErrors restoreError devs) := by
  intro devs
  induction devs with
  | nil =>
    intro acc
    simp [restoreCalls, restoreErrors]
  | cons r rest ih =>
    intro acc
    rw [List.foldl_cons]
    by_cases hneed : needsDriverRestore r
    · rw [if_pos hneed]
      cases hres : restoreError r.pciAddress r.originalDriver with
      | none =>
        rw [ih]
        simp [restoreCalls, restoreErrors, hneed, hres, List.filter_cons]
      | some e =>
        rw [ih]
        simp [restoreCalls, restoreErrors, hneed, hres, List.filter_cons]
    · rw [if_neg hneed]
      rw [ih]
      have hf : needsDriverRestore r = false := by simpa using hneed
      simp [restoreCalls, restoreErrors, List.filter_cons, hf]

/-- C9: releasing a claim restores the original driver exactly for the
records whose requested driver differs from the recorded original one,
aggregates every individual restore failure instead of stopping at the
first, and always attempts to delete the per-claim CDI spec file. -/
theorem c9_release_behaviour (restoreError : String → String → Option String)
    (claimUID : String) (preparedDevices : List PreparedDevice) :
    (Unprepare restoreError claimUID preparedDevices).1 =
      restoreCalls preparedDevices ++ [ReleaseAction.deleteSpecFile claimUID] ∧
    (Unprepare restoreError claimUID preparedDevices).2 =
      restoreErrors restoreError preparedDevices ∧
    ReleaseAction.deleteSpecFile claimUID ∈ (Unprepare restoreError claimUID preparedDevices).1 ∧
    (∀ r ∈ preparedDevices, needsDriverRestore r = true →
      ∀ e, restoreError r.pciAddress r.originalDriver = some e →
        ("failed to restore original driver: " ++ e) ∈
          (Unprepare restoreError claimUID preparedDevices).2) := by
  have hfold : unprepareDevices restoreError preparedDevices =
      (restoreCalls preparedDevices, restoreErrors restoreError preparedDevices) := by
    unfold unprepareDevices
    rw [unprepareDevices_fold restoreError preparedDevices ([], [])]
    simp
  have hun : Unprepare restoreError claimUID preparedDevices =
      (restoreCalls preparedDevices ++ [ReleaseAction.deleteSpecFile claimUID],
       restoreErrors restoreError preparedDevices) := by
    unfold Unprepare
    rw [hfold]
  refine ⟨by rw [hun], by rw [hun], by rw [hun]; simp, ?_⟩
  intro r hr hneed e hres
  rw [hun]
  simp only
  unfold restoreErrors
  apply List.mem_filterMap.mpr
  refine ⟨r, ?_, ?_⟩
  · exact List.mem_filter.mpr ⟨hr, hneed⟩
  · rw [hres]
    rfl

/-- C9 witness: the CONTRIBUTING.md unprepare scenarios combined: one
record rebound to vfio-pci whose restore fails, one record with no
requested driver, under claim claim-uid-123. -/
theorem c9_release_behaviour_witness :
    ("failed to restore original driver: restore failed") ∈
      (Unprepare (fun _ _ => some "restore failed") "claim-uid-123"
        [{ pciAddress := "0000:01:00.1", originalDriver := "ixgbevf",
           configDriver := "vfio-pci" },
         { pciAddress := "0000:01:00.2", originalDriver := "ixgbevf" }]).2 :=
  (c9_release_behaviour (fun _ _ => some "restore failed") "claim-uid-123"
      [{ pciAddress := "0000:01:00.1", originalDriver := "ixgbevf",
         configDriver := "vfio-pci" },
       { pciAddress := "0000:01:00.2", originalDriver := "ixgbevf" }]).2.2.2
    { pciAddress := "0000:01:00.1", originalDriver := "ixgbevf", configDriver := "vfio-pci" }
    (by decide) (by decide) "restore failed" rfl

end DraSriov
